import Mathlib

/-
Shallow embedding of the windowed stress-score pipeline of
src/src/ANS_reactivity/offline_processing.py (class OfflineAnalysisANS),
together with the normalizer of the draft file src/Indexing.py.

Modelling conventions:
- pandas column values are `Option ℚ`: `none` is the NA sentinel
  (NaN, and under `pd.options.mode.use_inf_as_na = True` also ±inf);
  `some q` is an ordinary numeric value, modelled exactly as a rational.
- Python exceptions are an `Except` error channel; a function that
  cannot raise is total.
- pandas Series division by a zero scalar produces inf/NaN values and
  never raises `ZeroDivisionError`; accordingly the embedded scalar
  division maps every entry to NA when the divisor is zero (or NA),
  instead of signalling an error.
- the external beat detector `hp.process` is a black-box parameter
  `det : List ℚ → Option ℚ` returning a bpm candidate or failure
  (`none` covers both an exception and a missing measure).
- pandas label indexing `series[np.arange(s, e)]` on a RangeIndex of
  length L raises `KeyError` when `e > L` (missing labels); the embedded
  chunk extraction returns `none` in that case.
-/

namespace ANSVR

/-! ## Python argument values (constructor and weight validation) -/

/-- A Python scalar as far as `isinstance(x, (int, float))` checks care:
an int, a float (modelled exactly as ℚ), or a non-numeric object. -/
inductive PyScalar where
  | int (i : ℤ)
  | float (q : ℚ)
  | nonnum
  deriving DecidableEq

/-- The `isinstance(v, (int, float))` test of line 213. -/
def PyScalar.isNumber : PyScalar → Bool
  | .int _ => true
  | .float _ => true
  | .nonnum => false

/-- Numeric value of a scalar; only meaningful when `isNumber` holds. -/
def PyScalar.toQ : PyScalar → ℚ
  | .int i => (i : ℚ)
  | .float q => q
  | .nonnum => 0

/-- The `weights` argument: either a dict (insertion-ordered key/value
pairs, as Python dicts are) or a value of some other type. -/
inductive WeightsArg where
  | dict (entries : List (String × PyScalar))
  | nondict
  deriving DecidableEq

/-- Python exception class raised by the validation code:
`TypeError` or `ValueError`. -/
inductive PyErr where
  | typeErr
  | valueErr
  deriving DecidableEq

/-- Lines 202-221, `OfflineAnalysisANS.check_weights_input`: the guard
chain checks, in order, dict type, length 3, key list equality with
["ECG", "GSR", "RESP"], numeric values, sum exactly 1, and
non-negativity; each failing guard raises (`.error`), and the final
branch returns `True` (`.ok true`). -/
def check_weights_input : WeightsArg → Except PyErr Bool
  | .nondict => .error .typeErr
  | .dict entries =>
    if entries.length ≠ 3 then .error .valueErr
    else if entries.map Prod.fst ≠ ["ECG", "GSR", "RESP"] then .error .valueErr
    else
      match entries.map Prod.snd with
      | [v0, v1, v2] =>
        if ¬ (v0.isNumber = true ∧ v1.isNumber = true ∧ v2.isNumber = true) then
          .error .typeErr
        else if v0.toQ + v1.toQ + v2.toQ ≠ 1 then .error .valueErr
        else if ¬ (0 ≤ v0.toQ ∧ 0 ≤ v1.toQ ∧ 0 ≤ v2.toQ) then .error .valueErr
        else .ok true
      | _ => .error .valueErr

/-- Lines 223-240, `OfflineAnalysisANS.change_weights`: the code sets
`self.weights = new_weights`, then runs `check_weights_input` (whose
exception, if any, propagates uncaught), and only on a falsy return
restores the old weights.  The result is the exception outcome paired
with the final value of `self.weights`. -/
def change_weights (old_weights new_weights : WeightsArg) :
    Except PyErr Unit × WeightsArg :=
  match check_weights_input new_weights with
  | .error e => (.error e, new_weights)
  | .ok b => if b then (.ok (), new_weights) else (.ok (), old_weights)

/-- The default weight set `{'ECG': 1/3, 'GSR': 1/3, 'RESP': 1/3}`. -/
def thirds : WeightsArg :=
  .dict [("ECG", .float (1/3)), ("GSR", .float (1/3)), ("RESP", .float (1/3))]

/-- An invalid candidate weight set whose values sum to 1.2
(the rejection scenario of the spec, §8). -/
def badWeights : WeightsArg :=
  .dict [("ECG", .float (1/2)), ("GSR", .float (3/5)), ("RESP", .float (1/10))]

/-- A Python value offered as `sample_rate` or `time_window`. -/
inductive PyArg where
  | int (i : ℤ)
  | float (q : ℚ)
  | other
  deriving DecidableEq

/-- The `isinstance(x, int)` test of lines 59 and 64. -/
def PyArg.isInt : PyArg → Bool
  | .int _ => true
  | _ => false

/-- Lines 59-67 of `OfflineAnalysisANS.__init__`: the only validation
applied to `sample_rate` and `time_window` is `isinstance(x, int)`;
a failing check raises `TypeError`, otherwise the value is stored.
No sign or positivity condition is checked. -/
def rate_window_check (sample_rate time_window : PyArg) : Except PyErr Unit :=
  if sample_rate.isInt = false then .error .typeErr
  else if time_window.isInt = false then .error .typeErr
  else .ok ()

/-! ## Chunking (heart_rate, lines 108-118) -/

/-- Line 108: `number_of_chunks = math.ceil(len(self.ecg)/self.n_samples)`,
as exact ceiling division (meaningful for `0 < n`). -/
def number_of_chunks (L n : ℕ) : ℕ := (L + n - 1) / n

/-- Lines 113-116: the end of chunk `k` is `(k+1)*n_samples` whenever the
guard `data_chunks != number_of_chunks` holds, and `len(self.ecg)`
otherwise. -/
def end_of_chunk (L n k : ℕ) : ℕ :=
  if k ≠ number_of_chunks L n then (k + 1) * n else L

/-- Configuration of one `heart_rate` run: the ECG channel, the window
size `n_samples`, and the external beat detector as a black box. -/
structure HRConfig where
  ecg : List ℚ
  n : ℕ
  det : List ℚ → Option ℚ

/-- Lines 112-119: extract chunk `k` of the ECG series.  The label
range `np.arange(start, end)` contains labels past the RangeIndex when
`end > len(ecg)`, and indexing then raises `KeyError` (modelled `none`). -/
def chunkExtract (cfg : HRConfig) (k : ℕ) : Option (List ℚ) :=
  let s := k * cfg.n
  let e := end_of_chunk cfg.ecg.length cfg.n k
  if e ≤ cfg.ecg.length then some ((cfg.ecg.drop s).take (e - s)) else none

/-- Lines 112-126, the body of the `try` block for chunk `k`: extract
the chunk, invoke the detector, and accept the candidate bpm only when
`bpm < 220`.  `none` means the `except` handler runs (extraction
`KeyError`, detector failure, or the explicit `raise` for `bpm ≥ 220`). -/
def chunkAttempt (cfg : HRConfig) (k : ℕ) : Option ℚ :=
  match chunkExtract cfg k with
  | none => none
  | some d =>
    match cfg.det d with
    | none => none
    | some b => if b < 220 then some b else none

/-- The first `m` entries of the output array of `heart_rate`, built in
loop order: a successful chunk stores its bpm; a failed chunk stores NaN
(`none`) at index 0 and otherwise copies the previous entry. -/
def hrAux (cfg : HRConfig) : ℕ → List (Option ℚ)
  | 0 => []
  | k + 1 =>
    hrAux cfg k ++
      [match chunkAttempt cfg k with
       | some b => some b
       | none => if k = 0 then none else (hrAux cfg k).getLastD none]

/-- Lines 94-133, `OfflineAnalysisANS.heart_rate`: one bpm entry per
chunk, `number_of_chunks` entries in total. -/
def heart_rate (cfg : HRConfig) : List (Option ℚ) :=
  hrAux cfg (number_of_chunks cfg.ecg.length cfg.n)

/-! ## TIME column (process_samples, line 169) -/

/-- Line 169: `self.time.iloc[0:-1:self.n_samples]` — every `n`-th
timestamp starting at index 0, strictly before the final index
`len(time) - 1` (the slice stop `-1` excludes the last sample).
Meaningful for `0 < n` (a zero slice step raises in Python). -/
def process_samples_time (time : List ℚ) (n : ℕ) : List ℚ :=
  ((List.range (time.length - 1)).filter (fun i => i % n = 0)).filterMap
    (fun i => time.get? i)

/-! ## Normalizer (normalizing_values, lines 174-195) -/

/-- Binary maximum on ℚ, written out so it evaluates by kernel
reduction. -/
def qmax (x y : ℚ) : ℚ := if x ≤ y then y else x

/-- Binary minimum on ℚ, written out so it evaluates by kernel
reduction. -/
def qmin (x y : ℚ) : ℚ := if x ≤ y then x else y

/-- Maximum of a list of rationals (`none` on the empty list), the
reduction behind `Series.max()` on the non-NA values. -/
def listMax : List ℚ → Option ℚ
  | [] => none
  | x :: xs =>
    match listMax xs with
    | none => some x
    | some m => some (qmax x m)

/-- Minimum of a list of rationals (`none` on the empty list). -/
def listMin : List ℚ → Option ℚ
  | [] => none
  | x :: xs =>
    match listMin xs with
    | none => some x
    | some m => some (qmin x m)

/-- The non-NA values of a column. -/
def colVals (c : List (Option ℚ)) : List ℚ := c.filterMap id

/-- `Series.max()`: skips NA entries, NA when no value remains. -/
def colMaxQ (c : List (Option ℚ)) : Option ℚ := listMax (colVals c)

/-- `Series.min()`: skips NA entries, NA when no value remains. -/
def colMinQ (c : List (Option ℚ)) : Option ℚ := listMin (colVals c)

/-- `series - s` for a scalar `s`: NA entries stay NA; an NA scalar
makes every entry NA. -/
def colSub (c : List (Option ℚ)) (s : Option ℚ) : List (Option ℚ) :=
  match s with
  | none => c.map (fun _ => none)
  | some m => c.map (Option.map (fun v => v - m))

/-- `series / s` for a scalar `s`: NA entries stay NA; an NA scalar
makes every entry NA; a zero scalar yields inf/NaN per entry — all NA
under `use_inf_as_na` — and raises no exception. -/
def colDiv (c : List (Option ℚ)) (s : Option ℚ) : List (Option ℚ) :=
  match s with
  | none => c.map (fun _ => none)
  | some d =>
    if d = 0 then c.map (fun _ => none)
    else c.map (Option.map (fun v => v / d))

/-- Lines 184-195, the per-column body of
`OfflineAnalysisANS.normalizing_values`: subtract the column minimum,
then divide by the maximum of the already-shifted column.  The
`except ZeroDivisionError` fallback of lines 190-193 is unreachable:
the embedded division (like pandas) never raises, so only the `try`
block contributes. -/
def normalizing_column (c : List (Option ℚ)) : List (Option ℚ) :=
  let shifted := colSub c (colMinQ c)
  colDiv shifted (colMaxQ shifted)

/-- Lines 51-61 of the draft file src/Indexing.py,
`normalizing_values`: `(value - min) / max` with the original column
maximum as divisor (this draft file does not parse as Python — two
function stubs have empty bodies — and is not part of the pipeline). -/
def normalizing_values_draft (c : List ℚ) : List ℚ :=
  match listMin c, listMax c with
  | some mn, some mx => c.map (fun v => (v - mn) / mx)
  | _, _ => c

/-- Modelled from the spec: the §4.4 degenerate-case fallback that the
claims describe for a zero-max column — add 1 to every value, recompute
the minimum, and apply the same subtract-min-then-divide formula with
the new maximum (the divisor the spec states, the column maximum).
The pipeline source never executes its corresponding branch. -/
def normalizing_fallback_spec (c : List (Option ℚ)) : List (Option ℚ) :=
  let c1 := c.map (Option.map (fun v => v + 1))
  match colMinQ c1, colMaxQ c1 with
  | some mn, some mx =>
    if mx = 0 then c1.map (fun _ => none)
    else c1.map (Option.map (fun v => (v - mn) / mx))
  | _, _ => c1.map (fun _ => none)

/-! ## Score combination (score_adding, lines 242-254) -/

/-- The per-window table after normalization, one `Option ℚ` column per
measure (columns TIME, ECG, RESP, GSR of `self.normal_data`). -/
structure NormalTable where
  time : List (Option ℚ)
  ecg : List (Option ℚ)
  resp : List (Option ℚ)
  gsr : List (Option ℚ)

/-- A validated weight set as held after `check_weights_input`:
the three numeric weights keyed "ECG", "GSR", "RESP". -/
structure WeightVals where
  wECG : ℚ
  wGSR : ℚ
  wRESP : ℚ

/-- `series * w` for a scalar weight: NA entries stay NA. -/
def colMulScalar (c : List (Option ℚ)) (w : ℚ) : List (Option ℚ) :=
  c.map (Option.map (fun v => v * w))

/-- Elementwise `series + series` on equal-length columns (the pipeline
invariant: every column has one entry per window); NA propagates. -/
def colAdd (a b : List (Option ℚ)) : List (Option ℚ) :=
  List.zipWith
    (fun x y =>
      match x, y with
      | some p, some q => some (p + q)
      | _, _ => none) a b

/-- The table after `score_adding`: the four columns of the input plus
the new Stress_Score column. -/
structure ScoredTable where
  time : List (Option ℚ)
  ecg : List (Option ℚ)
  resp : List (Option ℚ)
  gsr : List (Option ℚ)
  stress_score : List (Option ℚ)

/-- Lines 242-254, `OfflineAnalysisANS.score_adding`:
`Stress_Score = ECG*w_ECG + GSR*w_GSR + RESP*w_RESP`, the other columns
copied unchanged into `self.scored_data`. -/
def score_adding (t : NormalTable) (w : WeightVals) : ScoredTable :=
  { time := t.time
    ecg := t.ecg
    resp := t.resp
    gsr := t.gsr
    stress_score :=
      colAdd (colAdd (colMulScalar t.ecg w.wECG) (colMulScalar t.gsr w.wGSR))
        (colMulScalar t.resp w.wRESP) }

/-! ## Helper lemmas -/

theorem check_weights_cases (w : WeightsArg) :
    check_weights_input w = .ok true ∨ ∃ e, check_weights_input w = .error e := by
  cases w with
  | nondict => exact .inr ⟨.typeErr, rfl⟩
  | dict entries =>
    unfold check_weights_input
    repeat' split
    all_goals first
      | exact Or.inl rfl
      | exact Or.inr ⟨_, rfl⟩

theorem qmax_sub_sub (a b c : ℚ) : qmax (a - c) (b - c) = qmax a b - c := by
  unfold qmax
  rcases le_or_lt a b with h | h
  · rw [if_pos (by linarith), if_pos h]
  · rw [if_neg (by linarith), if_neg (not_le.mpr h)]

theorem colVals_map (f : ℚ → ℚ) (c : List (Option ℚ)) :
    colVals (c.map (Option.map f)) = (colVals c).map f := by
  induction c with
  | nil => rfl
  | cons x xs ih =>
    cases x with
    | none => simpa [colVals] using ih
    | some v => simpa [colVals] using ih

theorem listMax_map_sub (l : List ℚ) (m : ℚ) :
    listMax (l.map (fun v => v - m)) = (listMax l).map (fun v => v - m) := by
  induction l with
  | nil => rfl
  | cons x xs ih =>
    simp only [List.map_cons, listMax, ih]
    cases listMax xs with
    | none => rfl
    | some mx => simp [qmax_sub_sub]

theorem colMaxQ_shift (c : List (Option ℚ)) (mn mx : ℚ) (hmax : colMaxQ c = some mx) :
    colMaxQ (colSub c (some mn)) = some (mx - mn) := by
  show listMax (colVals (c.map (Option.map (fun v => v - mn)))) = some (mx - mn)
  rw [colVals_map, listMax_map_sub]
  rw [colMaxQ] at hmax
  rw [hmax]
  rfl

theorem hrAux_length (cfg : HRConfig) (m : ℕ) : (hrAux cfg m).length = m := by
  induction m with
  | zero => rfl
  | succ k ih => simp [hrAux, ih]

theorem hrAux_getElem?_succ (cfg : HRConfig) (k m : ℕ) (h : k < m) :
    (hrAux cfg m)[k]? = (hrAux cfg (k + 1))[k]? := by
  induction m with
  | zero => omega
  | succ n ih =>
    rcases Nat.lt_or_ge k n with h' | h'
    · simp only [hrAux]
      rw [List.getElem?_append_left (by rw [hrAux_length]; exact h')]
      exact ih h'
    · have hkn : k = n := by omega
      subst hkn
      rfl

theorem hrAux_getElem?_self (cfg : HRConfig) (k : ℕ) :
    (hrAux cfg (k + 1))[k]? =
      some (match chunkAttempt cfg k with
        | some b => some b
        | none => if k = 0 then none else (hrAux cfg k).getLastD none) := by
  have h := List.getElem?_concat_length (hrAux cfg k)
    (match chunkAttempt cfg k with
      | some b => some b
      | none => if k = 0 then none else (hrAux cfg k).getLastD none)
  rw [hrAux_length] at h
  simpa [hrAux] using h

theorem hr_fail_entry (cfg : HRConfig) (k : ℕ)
    (hk : k < number_of_chunks cfg.ecg.length cfg.n)
    (hfail : chunkAttempt cfg k = none) :
    (k = 0 → (heart_rate cfg)[0]? = some none) ∧
    (0 < k → (heart_rate cfg)[k]? = (heart_rate cfg)[k - 1]?) := by
  constructor
  · rintro rfl
    rw [heart_rate, hrAux_getElem?_succ cfg 0 _ hk, hrAux_getElem?_self, hfail]
    rfl
  · intro hpos
    have hk0 : k ≠ 0 := Nat.pos_iff_ne_zero.mp hpos
    obtain ⟨y, hy⟩ : ∃ y, (hrAux cfg k).getLast? = some y := by
      have hne : hrAux cfg k ≠ [] := by
        intro h0
        have := hrAux_length cfg k
        rw [h0] at this
        simp at this
        omega
      cases hx : (hrAux cfg k).getLast? with
      | none => exact absurd (List.getLast?_eq_none_iff.mp hx) hne
      | some y => exact ⟨y, rfl⟩
    have e1 : (heart_rate cfg)[k]? = some y := by
      rw [heart_rate, hrAux_getElem?_succ cfg k _ hk, hrAux_getElem?_self, hfail]
      simp only [hk0, if_false]
      rw [List.getLastD_eq_getLast?, hy]
      rfl
    have e2 : (heart_rate cfg)[k - 1]? = some y := by
      rw [heart_rate, hrAux_getElem?_succ cfg (k - 1) _ (by omega)]
      have hst : k - 1 + 1 = k := by omega
      rw [hst]
      rw [← hy, List.getLast?_eq_getElem?, hrAux_length]
    rw [e1, e2]

theorem numChunks_succ_arith (L n : ℕ) (hn : 0 < n) (hmod : L % n ≠ 0) :
    number_of_chunks L n = L / n + 1 ∧ L < number_of_chunks L n * n := by
  have hdm := Nat.div_add_mod L n
  have hrn : L % n < n := Nat.mod_lt _ hn
  have hr1 : 1 ≤ L % n := Nat.one_le_iff_ne_zero.mpr hmod
  have h2 : (L / n + 1) * n = n * (L / n) + n := by ring
  have h1 : L + n - 1 = (L % n - 1) + (L / n + 1) * n := by
    rw [h2]; omega
  have h3 : number_of_chunks L n = L / n + 1 := by
    rw [number_of_chunks, h1, Nat.add_mul_div_right _ _ hn, Nat.div_eq_of_lt (by omega)]
    omega
  refine ⟨h3, ?_⟩
  rw [h3, h2]
  omega

theorem zipWith_getElem? {α β γ : Type} (f : α → β → γ) (l1 : List α) (l2 : List β)
    (k : ℕ) (a : α) (b : β) (h1 : l1[k]? = some a) (h2 : l2[k]? = some b) :
    (List.zipWith f l1 l2)[k]? = some (f a b) := by
  induction l1 generalizing l2 k with
  | nil => simp at h1
  | cons x xs ih =>
    cases l2 with
    | nil => simp at h2
    | cons y ys =>
      cases k with
      | zero =>
        simp at h1 h2
        simp [h1, h2]
      | succ n =>
        simp at h1 h2 ⊢
        exact ih ys n h1 h2

/-! ## Claim theorems -/

/-- C1: the claim that `change_weights` is atomic and non-raising fails on
the code.  With the valid default weight set held and the sum-1.2
candidate of the spec scenario offered, `check_weights_input` raises a
`ValueError` that `change_weights` does not catch, and `self.weights` is
left holding the invalid candidate: the call raises, and the prior
weight set is not retained. -/
theorem C1_change_weights_not_atomic_eval :
    check_weights_input thirds = .ok true ∧
    check_weights_input badWeights = .error .valueErr ∧
    change_weights thirds badWeights = (.error .valueErr, badWeights) := by
  have hg : check_weights_input thirds = .ok true := by
    norm_num [check_weights_input, thirds, PyScalar.isNumber, PyScalar.toQ]
  have hb : check_weights_input badWeights = .error .valueErr := by
    norm_num [check_weights_input, badWeights, PyScalar.isNumber, PyScalar.toQ]
  exact ⟨hg, hb, by rw [change_weights, hb]⟩

/-- C2 counterexample: the claim states the divisor of the normalizer is
the original column maximum.  On the column [1, 3] (min 1, max 3, max
nonzero) the pipeline maps 3 to 1, because after subtracting the minimum
it divides by the maximum of the shifted column (max - min = 2); the
claimed formula (value - min) / max gives (3 - 1) / 3 = 2/3 ≠ 1 (the
draft-file normalizer, also cited by the claim, does compute 2/3). -/
theorem C2_normalizer_divisor_counterexample :
    colMinQ [some (1:ℚ), some 3] = some 1 ∧
    colMaxQ [some (1:ℚ), some 3] = some 3 ∧
    normalizing_column [some (1:ℚ), some 3] = [some 0, some 1] ∧
    normalizing_values_draft [1, 3] = [0, 2/3] ∧
    decide ((1:ℚ) = (3 - 1) / 3) = false := by
  refine ⟨by decide, by decide, ?_, ?_, ?_⟩
  · show colDiv (colSub [some (1:ℚ), some 3] (colMinQ [some (1:ℚ), some 3]))
        (colMaxQ (colSub [some (1:ℚ), some 3] (colMinQ [some (1:ℚ), some 3]))) =
        [some 0, some 1]
    norm_num [colMinQ, colMaxQ, colVals, listMin, listMax, qmin, qmax, colSub, colDiv]
  · norm_num [normalizing_values_draft, listMin, listMax, qmin, qmax]
  · rw [decide_eq_false_iff_not]
    norm_num

/-- C2 amended: for every column with a non-NA minimum `mn` and maximum
`mx` with `mn < mx` (a non-constant column), the normalizer maps every
value `v` of the column to `(v - mn) / (mx - mn)` exactly — the divisor
is the maximum of the column after subtracting the minimum — including
the entries equal to `mn` (mapped to 0) and to `mx` (mapped to 1). -/
theorem C2_normalizer_minmax_formula (col : List (Option ℚ)) (mn mx : ℚ)
    (hmin : colMinQ col = some mn) (hmax : colMaxQ col = some mx) (hlt : mn < mx)
    (k : ℕ) (v : ℚ) (hv : col[k]? = some (some v)) :
    (normalizing_column col)[k]? = some (some ((v - mn) / (mx - mn))) := by
  show (colDiv (colSub col (colMinQ col)) (colMaxQ (colSub col (colMinQ col))))[k]? = _
  rw [hmin, colMaxQ_shift col mn mx hmax]
  have hne : mx - mn ≠ 0 := sub_ne_zero.mpr (ne_of_gt hlt)
  show ((if mx - mn = 0 then (col.map (Option.map (fun v => v - mn))).map (fun _ => none)
      else (col.map (Option.map (fun v => v - mn))).map
        (Option.map (fun v => v / (mx - mn)))) : List (Option ℚ))[k]? = _
  rw [if_neg hne, List.getElem?_map, List.getElem?_map, hv]
  rfl

/-- C2 witness: the amended formula applied to the column [1, 3] at the
entry holding the maximum 3, which is mapped to (3 - 1) / (3 - 1) = 1. -/
theorem C2_normalizer_minmax_formula_witness :
    (normalizing_column [some (1:ℚ), some 3])[1]? = some (some ((3 - 1) / (3 - 1))) :=
  C2_normalizer_minmax_formula [some 1, some 3] 1 3 (by decide) (by decide)
    (by decide) 1 3 rfl

/-- C3: the claim that every chunk covers sample indices
[k*n_samples, min((k+1)*n_samples, L)) with no index past the end fails
on `heart_rate`.  For L = 5 samples and n_samples = 2 the chunk count is
3 and the last chunk (k = 2) is given the end 6 > 5, because the guard
`data_chunks != number_of_chunks` is always true inside the loop, so the
clamping branch `end_of_chunk = len(self.ecg)` (the clamp the claim
describes) is dead code, and the out-of-range label range makes the
chunk extraction raise `KeyError`. -/
theorem C3_last_chunk_end_eval :
    number_of_chunks 5 2 = 3 ∧
    end_of_chunk 5 2 2 = 6 ∧
    decide (end_of_chunk 5 2 2 ≤ 5) = false ∧
    chunkExtract ⟨[1, 2, 3, 4, 5], 2, fun _ => some 100⟩ 2 = none := by decide

/-- C4: heart-rate carry-forward.  For every configuration and chunk
index k below the chunk count, if the detector call for chunk k fails
(or raises) or returns a bpm candidate at least 220, then output entry 0
is the NaN sentinel when k = 0, and entry k equals entry k-1 when k > 0;
the rejected candidate itself is never stored. -/
theorem C4_heart_rate_carry_forward (cfg : HRConfig) (k : ℕ)
    (hk : k < number_of_chunks cfg.ecg.length cfg.n)
    (hfail : cfg.det ((chunkExtract cfg k).getD []) = none ∨
      ∃ b, cfg.det ((chunkExtract cfg k).getD []) = some b ∧ 220 ≤ b) :
    (k = 0 → (heart_rate cfg)[0]? = some none) ∧
    (0 < k → (heart_rate cfg)[k]? = (heart_rate cfg)[k - 1]?) := by
  apply hr_fail_entry cfg k hk
  cases hce : chunkExtract cfg k with
  | none =>
    unfold chunkAttempt
    rw [hce]
  | some d =>
    unfold chunkAttempt
    rw [hce]
    rw [hce] at hfail
    simp only [Option.getD_some] at hfail
    show (match cfg.det d with
      | none => none
      | some b => if b < 220 then some b else none) = none
    rcases hfail with h | ⟨b, hb, h220⟩
    · rw [h]
    · rw [hb]
      show (if b < 220 then some b else none) = none
      rw [if_neg (not_lt.mpr h220)]

/-- C4 witness: a 2-sample ECG at n_samples = 2 (one chunk) with a
detector that always fails; the single output entry is NaN. -/
theorem C4_heart_rate_carry_forward_witness :
    (heart_rate ⟨[(1:ℚ), 2], 2, fun _ => none⟩)[0]? = some none :=
  (C4_heart_rate_carry_forward ⟨[(1:ℚ), 2], 2, fun _ => none⟩ 0 (by decide)
    (Or.inl rfl)).1 rfl

/-- C5: the claim that a zero-max column triggers the add-1 fallback
fails on the code.  On the all-zero column [0, 0] the main path runs:
pandas division by the zero scalar produces NaN (0/0) per entry and
never raises `ZeroDivisionError`, so the `except` fallback branch is
dead and the column becomes all-NaN, whereas the fallback the claim
describes would produce the defined column [0, 0]. -/
theorem C5_zero_max_column_eval :
    colMaxQ [some (0:ℚ), some 0] = some 0 ∧
    normalizing_column [some (0:ℚ), some 0] = [none, none] ∧
    normalizing_fallback_spec [some (0:ℚ), some 0] = [some 0, some 0] ∧
    decide (([none, none] : List (Option ℚ)) = [some 0, some 0]) = false := by
  refine ⟨by decide, ?_, ?_, by decide⟩
  · show colDiv (colSub [some (0:ℚ), some 0] (colMinQ [some (0:ℚ), some 0]))
        (colMaxQ (colSub [some (0:ℚ), some 0] (colMinQ [some (0:ℚ), some 0]))) =
        [none, none]
    norm_num [colMinQ, colMaxQ, colVals, listMin, listMax, qmin, qmax, colSub, colDiv]
  · norm_num [normalizing_fallback_spec, colMinQ, colMaxQ, colVals, listMin,
      listMax, qmin, qmax]

/-- C6 counterexample: the claim that construction fails for every
non-positive integer `sample_rate` fails on the code.  The constructor
accepts `sample_rate = 0` (an integer that is not positive): the only
validation is `isinstance(x, int)`, so construction succeeds while
`sample_rate > 0` is false. -/
theorem C6_nonpositive_int_accepted :
    rate_window_check (.int 0) (.int 512) = .ok () ∧ decide ((0:ℤ) > 0) = false :=
  ⟨rfl, by decide⟩

/-- C6 amended: the constructor validation of `sample_rate` and
`time_window` succeeds exactly when both arguments are Python ints; no
positivity (or any sign) condition is checked, so construction
succeeding does not imply the values are positive. -/
theorem C6_type_check_only (a b : PyArg) :
    rate_window_check a b = .ok () ↔ (a.isInt = true ∧ b.isInt = true) := by
  cases a <;> cases b <;> simp [rate_window_check, PyArg.isInt]

/-- C7: the claim that the TIME column has one entry per window, entry k
being the timestamp at sample k*n_samples, fails on the code.  With
timestamps [10, 20, 30] and n_samples = 2 there are 2 windows but
`time.iloc[0:-1:n_samples]` yields only [10]: the slice stop -1 excludes
the final sample, so a window whose first sample is the last sample of
the recording (here window 1, starting at index 2 = L - 1) gets no TIME
entry at all. -/
theorem C7_time_column_eval :
    process_samples_time [(10:ℚ), 20, 30] 2 = [10] ∧
    number_of_chunks 3 2 = 2 ∧
    decide ((process_samples_time [(10:ℚ), 20, 30] 2).length = number_of_chunks 3 2)
      = false := by decide

/-- C8: score combination.  For every normalized table, weight set, and
window index k with numeric entries e, g, r in the ECG, GSR and RESP
columns, the Stress_Score entry at k is exactly
e*w_ECG + g*w_GSR + r*w_RESP, and the TIME, ECG, RESP and GSR columns of
the scored table are unchanged. -/
theorem C8_score_combination (t : NormalTable) (w : WeightVals) (k : ℕ) (e g r : ℚ)
    (he : t.ecg[k]? = some (some e)) (hg : t.gsr[k]? = some (some g))
    (hresp : t.resp[k]? = some (some r)) :
    (score_adding t w).stress_score[k]? =
      some (some (e * w.wECG + g * w.wGSR + r * w.wRESP)) ∧
    (score_adding t w).time = t.time ∧ (score_adding t w).ecg = t.ecg ∧
    (score_adding t w).resp = t.resp ∧ (score_adding t w).gsr = t.gsr := by
  refine ⟨?_, rfl, rfl, rfl, rfl⟩
  have hme : (colMulScalar t.ecg w.wECG)[k]? = some (some (e * w.wECG)) := by
    rw [colMulScalar, List.getElem?_map, he]; rfl
  have hmg : (colMulScalar t.gsr w.wGSR)[k]? = some (some (g * w.wGSR)) := by
    rw [colMulScalar, List.getElem?_map, hg]; rfl
  have hmr : (colMulScalar t.resp w.wRESP)[k]? = some (some (r * w.wRESP)) := by
    rw [colMulScalar, List.getElem?_map, hresp]; rfl
  have h1 : (colAdd (colMulScalar t.ecg w.wECG) (colMulScalar t.gsr w.wGSR))[k]? =
      some (some (e * w.wECG + g * w.wGSR)) := by
    rw [colAdd]
    exact zipWith_getElem? _ _ _ k _ _ hme hmg
  show (colAdd (colAdd (colMulScalar t.ecg w.wECG) (colMulScalar t.gsr w.wGSR))
      (colMulScalar t.resp w.wRESP))[k]? = _
  rw [colAdd]
  exact zipWith_getElem? _ _ _ k _ _ h1 hmr

/-- C8 witness: the spec §8 scenario — normalized values ECG = 0.2,
GSR = 0.8, RESP = 0.4 with weights 0.5, 0.5, 0 give the score
0.2*0.5 + 0.8*0.5 + 0.4*0. -/
theorem C8_score_combination_witness :
    (score_adding ⟨[some 0], [some (1/5)], [some (2/5)], [some (4/5)]⟩
        ⟨1/2, 1/2, 0⟩).stress_score[0]? =
      some (some ((1/5) * (1/2) + (4/5) * (1/2) + (2/5) * 0)) :=
  (C8_score_combination ⟨[some 0], [some (1/5)], [some (2/5)], [some (4/5)]⟩
    ⟨1/2, 1/2, 0⟩ 0 (1/5) (4/5) (2/5) rfl rfl rfl).1

/-- C9: `check_weights_input` never returns a falsy value — on every
input it either raises (`TypeError` or `ValueError`) or returns `True` —
and consequently the restore branch of `change_weights` is unreachable:
after any call to `change_weights`, whatever the outcome, `self.weights`
holds the new candidate, never the restored old value. -/
theorem C9_check_weights_never_false (w old_w new_w : WeightsArg) :
    (check_weights_input w = .ok true ∨ ∃ e, check_weights_input w = .error e) ∧
    (change_weights old_w new_w).2 = new_w := by
  refine ⟨check_weights_cases w, ?_⟩
  rcases check_weights_cases new_w with h | ⟨e, h⟩ <;> simp [change_weights, h]

/-- C10: inside the `heart_rate` loop the guard
`data_chunks != number_of_chunks` holds for every iteration, so every
chunk, the last included, ends at (k+1)*n_samples and the clamping
branch is dead; hence whenever the ECG length is positive and not a
multiple of n_samples, the final chunk reaches past the end of the data,
its extraction fails, and the final output entry comes from the failure
path: NaN when there is exactly one window, otherwise a copy of the
previous entry — never a fresh detector result on the partial chunk. -/
theorem C10_dead_clamp_and_final_chunk (cfg : HRConfig)
    (hn : 0 < cfg.n) (hL : 0 < cfg.ecg.length)
    (hmod : cfg.ecg.length % cfg.n ≠ 0) :
    (∀ k, k < number_of_chunks cfg.ecg.length cfg.n →
      end_of_chunk cfg.ecg.length cfg.n k = (k + 1) * cfg.n) ∧
    cfg.ecg.length <
      end_of_chunk cfg.ecg.length cfg.n (number_of_chunks cfg.ecg.length cfg.n - 1) ∧
    chunkAttempt cfg (number_of_chunks cfg.ecg.length cfg.n - 1) = none ∧
    (number_of_chunks cfg.ecg.length cfg.n = 1 → (heart_rate cfg)[0]? = some none) ∧
    (1 < number_of_chunks cfg.ecg.length cfg.n →
      (heart_rate cfg)[number_of_chunks cfg.ecg.length cfg.n - 1]? =
      (heart_rate cfg)[number_of_chunks cfg.ecg.length cfg.n - 2]?) := by
  obtain ⟨hqc, hlt⟩ := numChunks_succ_arith cfg.ecg.length cfg.n hn hmod
  have hM1 : 0 < number_of_chunks cfg.ecg.length cfg.n := by
    rcases Nat.eq_zero_or_pos (number_of_chunks cfg.ecg.length cfg.n) with h0 | h
    · rw [h0, zero_mul] at hlt; omega
    · exact h
  have hguard : ∀ k, k < number_of_chunks cfg.ecg.length cfg.n →
      end_of_chunk cfg.ecg.length cfg.n k = (k + 1) * cfg.n := by
    intro k hk
    rw [end_of_chunk, if_pos (by omega)]
  have hend : end_of_chunk cfg.ecg.length cfg.n
      (number_of_chunks cfg.ecg.length cfg.n - 1) =
      number_of_chunks cfg.ecg.length cfg.n * cfg.n := by
    rw [hguard _ (by omega)]
    congr 1
    omega
  have hover : cfg.ecg.length < end_of_chunk cfg.ecg.length cfg.n
      (number_of_chunks cfg.ecg.length cfg.n - 1) := by
    rw [hend]; exact hlt
  have hatt : chunkAttempt cfg (number_of_chunks cfg.ecg.length cfg.n - 1) = none := by
    have hno : ¬ (end_of_chunk cfg.ecg.length cfg.n
        (number_of_chunks cfg.ecg.length cfg.n - 1) ≤ cfg.ecg.length) :=
      not_le.mpr hover
    simp only [chunkAttempt, chunkExtract]
    rw [if_neg hno]
  obtain ⟨hzero, hsucc⟩ := hr_fail_entry cfg
    (number_of_chunks cfg.ecg.length cfg.n - 1) (by omega) hatt
  refine ⟨hguard, hover, hatt, ?_, ?_⟩
  · intro h1
    exact hzero (by omega)
  · intro h1
    have hidx : number_of_chunks cfg.ecg.length cfg.n - 1 - 1 =
        number_of_chunks cfg.ecg.length cfg.n - 2 := by omega
    have := hsucc (by omega)
    rwa [hidx] at this

/-- C10 witness: a 3-sample ECG at n_samples = 2 with a detector that
always reports 100 bpm; the second (partial) chunk reaches index 4 > 3,
so its entry is a carry-forward of the first. -/
theorem C10_dead_clamp_and_final_chunk_witness :
    (heart_rate ⟨[(1:ℚ), 2, 3], 2, fun _ => some 100⟩)[
      number_of_chunks (List.length [(1:ℚ), 2, 3]) 2 - 1]? =
    (heart_rate ⟨[(1:ℚ), 2, 3], 2, fun _ => some 100⟩)[
      number_of_chunks (List.length [(1:ℚ), 2, 3]) 2 - 2]? :=
  (C10_dead_clamp_and_final_chunk ⟨[(1:ℚ), 2, 3], 2, fun _ => some 100⟩
    (by decide) (by decide) (by decide)).2.2.2.2 (by decide)

end ANSVR
